import Mathlib

/-!
Verification of the Annotation Canvas Engine of the red-ink document
app, shallowly embedded from `src/frontend/src/components/AnnotationCanvas.jsx`
and `src/frontend/src/App.jsx`.

Numbers are modelled as rationals (`ℚ`); JavaScript objects become Lean
structures whose optional fields are `Option`-valued, with JS truthiness
(`if (obj.width)`) modelled explicitly.  Interactivity flags
(`selectable`, `evented`, `hasBorders`, `hasControls`) are not part of the
serialized `toJSON` snapshots and no property below inspects them, so they
are not modelled.
-/

namespace RedInk

/-- A 2-D point in device-pixel coordinates. -/
structure Point where
  x : ℚ
  y : ℚ
  deriving DecidableEq

/-- A serialized fabric.js object as it appears in `canvas.toJSON()` payloads.
Geometric fields that a fabric object may or may not carry are `Option`-valued;
`pathPoints` holds the vertex list of a freehand path (the app builds paths
from a point list; the SVG command encoding is irrelevant to every property
proved below). -/
structure FabricObject where
  type : String
  left : ℚ
  top : ℚ
  scaleX : ℚ
  scaleY : ℚ
  width : Option ℚ
  height : Option ℚ
  fontSize : Option ℚ
  x1 : Option ℚ
  y1 : Option ℚ
  x2 : Option ℚ
  y2 : Option ℚ
  strokeWidth : Option ℚ
  radius : Option ℚ
  stroke : Option String
  fill : Option String
  text : Option String
  fontFamily : Option String
  pathPoints : List Point
  deriving DecidableEq

/-- A serialized canvas payload (`canvas.toJSON()` / stored annotation data):
a version string plus the ordered object list.  The object-level spread
`{ ...json, objects: ... }` in the source preserves all other scene fields,
represented here by `version`. -/
structure Scene where
  version : String
  objects : List FabricObject
  deriving DecidableEq

/-- JavaScript `a || b` on numbers: falsy (here: zero) falls back to `b`. -/
def jsOr (a b : ℚ) : ℚ := if a = 0 then b else a

/-- JS truthiness of an optional numeric field: present and nonzero. -/
def optTruthy : Option ℚ → Bool
  | some v => v ≠ 0
  | none => false

/-- JS `o < c` for an optional numeric field: `undefined < c` is false. -/
def optLt (o : Option ℚ) (c : ℚ) : Bool :=
  match o with
  | some v => v < c
  | none => false

/-- The per-object body of `normalizeData` (AnnotationCanvas.jsx lines 65-101):
divide positions/sizes by the canvas extent, baking any scale factor into the
size fields and resetting scale to 1. -/
def normalizeObject (width height : ℚ) (obj : FabricObject) : FabricObject :=
  let effectiveScaleX := jsOr obj.scaleX 1
  let effectiveScaleY := jsOr obj.scaleY 1
  { obj with
    left := obj.left / width
    top := obj.top / height
    scaleX := 1
    scaleY := 1
    width := if optTruthy obj.width then obj.width.map (fun v => v * effectiveScaleX / width) else obj.width
    height := if optTruthy obj.height then obj.height.map (fun v => v * effectiveScaleY / height) else obj.height
    fontSize := if optTruthy obj.fontSize then obj.fontSize.map (fun v => v * effectiveScaleY / height) else obj.fontSize
    x1 := if obj.x1.isSome then obj.x1.map (fun v => v * effectiveScaleX / width) else obj.x1
    y1 := if obj.y1.isSome then obj.y1.map (fun v => v * effectiveScaleY / height) else obj.y1
    x2 := if obj.x2.isSome then obj.x2.map (fun v => v * effectiveScaleX / width) else obj.x2
    y2 := if obj.y2.isSome then obj.y2.map (fun v => v * effectiveScaleY / height) else obj.y2
    strokeWidth := if optTruthy obj.strokeWidth then obj.strokeWidth.map (fun v => v * effectiveScaleX / width) else obj.strokeWidth
    radius := if optTruthy obj.radius then obj.radius.map (fun v => v * effectiveScaleX / width) else obj.radius }

/-- Function `normalizeData` (AnnotationCanvas.jsx lines 62-107).  The guard
`!json || !json.objects || !width || !height` reduces, for a well-typed
payload, to the zero checks on the dimensions. -/
def normalizeData (json : Scene) (width height : ℚ) : Scene :=
  if width = 0 ∨ height = 0 then json
  else { json with objects := json.objects.map (normalizeObject width height) }

/-- The per-object body of `denormalizeData` (AnnotationCanvas.jsx lines
150-181): multiply fractional fields back by the target extent. -/
def denormalizeObject (targetWidth targetHeight : ℚ) (obj : FabricObject) : FabricObject :=
  { obj with
    left := obj.left * targetWidth
    top := obj.top * targetHeight
    scaleX := 1
    scaleY := 1
    width := if optTruthy obj.width then obj.width.map (fun v => v * targetWidth) else obj.width
    height := if optTruthy obj.height then obj.height.map (fun v => v * targetHeight) else obj.height
    fontSize := if optTruthy obj.fontSize then obj.fontSize.map (fun v => v * targetHeight) else obj.fontSize
    x1 := if obj.x1.isSome then obj.x1.map (fun v => v * targetWidth) else obj.x1
    y1 := if obj.y1.isSome then obj.y1.map (fun v => v * targetHeight) else obj.y1
    x2 := if obj.x2.isSome then obj.x2.map (fun v => v * targetWidth) else obj.x2
    y2 := if obj.y2.isSome then obj.y2.map (fun v => v * targetHeight) else obj.y2
    strokeWidth := if optTruthy obj.strokeWidth then obj.strokeWidth.map (fun v => v * targetWidth) else obj.strokeWidth
    radius := if optTruthy obj.radius then obj.radius.map (fun v => v * targetWidth) else obj.radius }

/-- Function `denormalizeData` (AnnotationCanvas.jsx lines 147-187). -/
def denormalizeData (json : Scene) (targetWidth targetHeight : ℚ) : Scene :=
  if targetWidth = 0 ∨ targetHeight = 0 then json
  else { json with objects := json.objects.map (denormalizeObject targetWidth targetHeight) }

/-- The inline per-object normalization used by the resize effect
(AnnotationCanvas.jsx lines 251-270).  Unlike `normalizeObject` it does not
touch the line coordinates `x1`/`y1`/`x2`/`y2`. -/
def resizeNormalizeObject (prevWidth prevHeight : ℚ) (obj : FabricObject) : FabricObject :=
  let effectiveScaleX := jsOr obj.scaleX 1
  let effectiveScaleY := jsOr obj.scaleY 1
  { obj with
    left := obj.left / prevWidth
    top := obj.top / prevHeight
    scaleX := 1
    scaleY := 1
    width := if optTruthy obj.width then obj.width.map (fun v => v * effectiveScaleX / prevWidth) else obj.width
    height := if optTruthy obj.height then obj.height.map (fun v => v * effectiveScaleY / prevHeight) else obj.height
    fontSize := if optTruthy obj.fontSize then obj.fontSize.map (fun v => v * effectiveScaleY / prevHeight) else obj.fontSize
    strokeWidth := if optTruthy obj.strokeWidth then obj.strokeWidth.map (fun v => v * effectiveScaleX / prevWidth) else obj.strokeWidth
    radius := if optTruthy obj.radius then obj.radius.map (fun v => v * effectiveScaleX / prevWidth) else obj.radius }

/-- The non-geometric data of an object: everything `normalizeData` /
`denormalizeData` never rewrite. -/
def nonGeom (obj : FabricObject) : String × Option String × Option String × Option String × Option String × List Point :=
  (obj.type, obj.stroke, obj.fill, obj.text, obj.fontFamily, obj.pathPoints)

/-- The version string fabric embeds in every `toJSON()` payload.  Its exact
value is irrelevant to every property below. -/
def fabricJSONVersion : String := "6.7.0"

/-- Minimum arrow length at commit time (AnnotationCanvas.jsx line 546). -/
def minArrowLength : ℚ := 25

/-- Minimum box size at commit time (AnnotationCanvas.jsx line 559). -/
def minRectSize : ℚ := 10

/-- The head length of an arrow preview (AnnotationCanvas.jsx line 453). -/
def headLength : ℚ := 15

/-- Clamp a raw pointer to the canvas (AnnotationCanvas.jsx lines 337-340,
415-418, 538-541). -/
def clampPoint (raw : Point) (width height : ℚ) : Point :=
  { x := max 0 (min raw.x width), y := max 0 (min raw.y height) }

/-- The squared straight-line length computed at arrow commit time
(AnnotationCanvas.jsx lines 537-545): the clamped end point against the
recorded start point.  The source compares `Math.sqrt` of this with
`minArrowLength`; squaring both sides keeps the test inside `ℚ`. -/
def arrowLengthSq (width height : ℚ) (sp raw : Point) : ℚ :=
  ((clampPoint raw width height).x - sp.x) ^ 2 + ((clampPoint raw width height).y - sp.y) ^ 2

/-- Smallest x coordinate of a point list (0 for the empty list). -/
def pathMinX : List Point → ℚ
  | [] => 0
  | p :: rest => rest.foldl (fun a q => min a q.x) p.x

/-- Largest x coordinate of a point list (0 for the empty list). -/
def pathMaxX : List Point → ℚ
  | [] => 0
  | p :: rest => rest.foldl (fun a q => max a q.x) p.x

/-- Smallest y coordinate of a point list (0 for the empty list). -/
def pathMinY : List Point → ℚ
  | [] => 0
  | p :: rest => rest.foldl (fun a q => min a q.y) p.y

/-- Largest y coordinate of a point list (0 for the empty list). -/
def pathMaxY : List Point → ℚ
  | [] => 0
  | p :: rest => rest.foldl (fun a q => max a q.y) p.y

/-- Bounding-box dimensions of a freehand path, computed from its vertex
list (`obj.getBoundingRect()` on a path in AnnotationCanvas.jsx line 571;
fabric derives the path's dimensions from its point extents). -/
def pathExtents (ps : List Point) : ℚ × ℚ :=
  (pathMaxX ps - pathMinX ps, pathMaxY ps - pathMinY ps)

/-- The freehand-path preview built in `handleMouseMove` for tool `draw`
(AnnotationCanvas.jsx lines 426-449): a path through the collected points
with the active stroke color, stroke width 2 and transparent fill. -/
def mkPath (points : List Point) (color : String) : FabricObject :=
  { type := "path"
    left := pathMinX points
    top := pathMinY points
    scaleX := 1, scaleY := 1
    width := some (pathMaxX points - pathMinX points)
    height := some (pathMaxY points - pathMinY points)
    fontSize := none, x1 := none, y1 := none, x2 := none, y2 := none
    strokeWidth := some 2
    radius := none
    stroke := some color
    fill := some ("transparent")
    text := none, fontFamily := none
    pathPoints := points }

/-- The arrow preview built in `handleMouseMove` for tool `arrow`
(AnnotationCanvas.jsx lines 451-484): a group of a line from the start point
to the clamped end point and a triangular head.  The two children are
flattened here — the line's endpoints are kept in `x1`/`y1`/`x2`/`y2` and the
head's rotation (an `atan2`) is omitted, since no property below inspects the
internals of an arrow group. -/
def mkArrowGroup (start : Point) (endX endY : ℚ) (color : String) : FabricObject :=
  { type := "group"
    left := min start.x endX
    top := min start.y endY
    scaleX := 1, scaleY := 1
    width := some |endX - start.x|
    height := some |endY - start.y|
    fontSize := none
    x1 := some start.x, y1 := some start.y, x2 := some endX, y2 := some endY
    strokeWidth := some 2
    radius := none
    stroke := some color
    fill := some color
    text := none, fontFamily := none
    pathPoints := [] }

/-- The box preview built in `handleMouseMove` for tool `box`
(AnnotationCanvas.jsx lines 485-515); `width: rectWidth || 1` is JS `||`. -/
def mkRect (left top rectWidth rectHeight : ℚ) (color : String) : FabricObject :=
  { type := "rect"
    left := left
    top := top
    scaleX := 1, scaleY := 1
    width := some (jsOr rectWidth 1)
    height := some (jsOr rectHeight 1)
    fontSize := none, x1 := none, y1 := none, x2 := none, y2 := none
    strokeWidth := some 2
    radius := none
    stroke := some color
    fill := some ("transparent")
    text := none, fontFamily := none
    pathPoints := [] }

/-- The textbox created on pointer-down with tool `text`
(AnnotationCanvas.jsx lines 362-373): empty content, font size 18, Arial,
width 300, filled with the active color. -/
def mkTextbox (left top : ℚ) (color : String) : FabricObject :=
  { type := "textbox"
    left := left
    top := top
    scaleX := 1, scaleY := 1
    width := some 300
    height := none
    fontSize := some 18
    x1 := none, y1 := none, x2 := none, y2 := none
    strokeWidth := none
    radius := none
    stroke := none
    fill := some color
    text := some ("")
    fontFamily := some ("Arial")
    pathPoints := [] }

/-- The emptiness test of `handleTextEditEnd` (AnnotationCanvas.jsx line 678):
`!textbox.text || textbox.text.trim() === ''`.  An absent or empty string is
falsy; otherwise the trimmed content is compared with the empty string. -/
def emptyText : Option String → Bool
  | none => true
  | some s => s = "" || s.trim = ""

/-- The state of one page's canvas: current pixel dimensions (also the
`prevDimensionsRef` used by the resize effect), the ordered object list
(paint order), the history stack, and the drawing refs of the tool state
machine.  `activeTool` is `""` when no tool is active (JS `null`). -/
structure CanvasState where
  width : ℚ
  height : ℚ
  objects : List FabricObject
  history : List Scene
  isDrawing : Bool
  startPoint : Option Point
  tempObject : Option FabricObject
  drawPoints : List Point
  justExitedTextEdit : Bool
  selection : Bool
  activeTool : String
  activeColor : String
  deriving DecidableEq

/-- Model of `canvas.toJSON()`: the serialized snapshot of the live scene. -/
def canvasToJSON (st : CanvasState) : Scene :=
  { version := fabricJSONVersion, objects := st.objects }

/-- Function `saveToHistory` (AnnotationCanvas.jsx lines 307-317): push the current
snapshot onto the history stack.  (The normalized payload it also emits to
the parent is modelled at the Document Session level, see `debounceEmits`.) -/
def saveToHistory (st : CanvasState) : CanvasState :=
  { st with history := st.history ++ [canvasToJSON st] }

/-- Handler `handleMouseDown` (AnnotationCanvas.jsx lines 325-406).  `hitTarget`
models `opt.target` (the pointer landed on an existing object).  Fabric's
active-object tracking and the deferred `enterEditing` call are outside the
serialized state and not modelled. -/
def handleMouseDown (st : CanvasState) (raw : Point) (hitTarget : Bool) : CanvasState :=
  if st.activeTool = "" ∨ st.activeTool = "select" then st
  else if hitTarget then st
  else
    let pointer := clampPoint raw st.width st.height
    let st1 := { st with isDrawing := true, startPoint := some pointer, selection := false }
    if st1.activeTool = "text" then
      if st1.justExitedTextEdit then
        { st1 with justExitedTextEdit := false, isDrawing := false, selection := true }
      else
        let textWidth : ℚ := 300
        let clampedX := max 0 (min pointer.x (st1.width - textWidth))
        let textObj := mkTextbox clampedX pointer.y st1.activeColor
        { st1 with objects := st1.objects ++ [textObj], isDrawing := false }
    else if st1.activeTool = "draw" then
      { st1 with drawPoints := [pointer] }
    else st1

/-- Handler `handleMouseMove` (AnnotationCanvas.jsx lines 408-519): remove the
previous preview, then rebuild it from the recorded start point and the
clamped current pointer according to the active tool. -/
def handleMouseMove (st : CanvasState) (raw : Point) : CanvasState :=
  if st.isDrawing = false ∨ st.startPoint = none then st
  else if st.activeTool = "text" then st
  else
    match st.startPoint with
    | none => st
    | some start =>
      let pointer := clampPoint raw st.width st.height
      let objs0 := match st.tempObject with
        | some t => st.objects.erase t
        | none => st.objects
      if st.activeTool = "draw" then
        let points := st.drawPoints ++ [pointer]
        let path := mkPath points st.activeColor
        { st with drawPoints := points, objects := objs0 ++ [path], tempObject := some path }
      else if st.activeTool = "arrow" then
        let clampedEndX := max (headLength / 2) (min pointer.x (st.width - headLength / 2))
        let group := mkArrowGroup start clampedEndX pointer.y st.activeColor
        { st with objects := objs0 ++ [group], tempObject := some group }
      else if st.activeTool = "box" then
        let strokeWidth : ℚ := 2
        let clampedStartX := max (strokeWidth / 2) (min start.x (st.width - strokeWidth / 2))
        let clampedPointerX := max (strokeWidth / 2) (min pointer.x (st.width - strokeWidth / 2))
        let rectLeft := min clampedStartX clampedPointerX
        let rectTop := min start.y pointer.y
        let rectWidth := |clampedPointerX - clampedStartX|
        let rectHeight := |pointer.y - start.y|
        let rect := mkRect rectLeft rectTop rectWidth rectHeight st.activeColor
        { st with objects := objs0 ++ [rect], tempObject := some rect }
      else
        { st with objects := objs0 }

/-- The arrow-too-short test of `handleMouseUp` (AnnotationCanvas.jsx lines
536-554): JS `startPoint && length < minArrowLength`, with the length
compared in squared form (see `arrowLengthSq`). -/
def arrowTooShort (width height : ℚ) (startPoint : Option Point) (raw : Point) : Bool :=
  match startPoint with
  | some sp => decide (arrowLengthSq width height sp raw < minArrowLength ^ 2)
  | none => false

/-- Handler `handleMouseUp` (AnnotationCanvas.jsx lines 521-593): finalize or reject
the preview.  The source compares `Math.sqrt(d)` with `minArrowLength`; for
a nonnegative squared distance `d` that is equivalent to `d < minArrowLength ^ 2`,
which keeps the definition inside `ℚ`. -/
def handleMouseUp (st : CanvasState) (raw : Point) : CanvasState :=
  if st.isDrawing = false then st
  else
    let startPoint := st.startPoint
    let st1 := { st with isDrawing := false, startPoint := none, drawPoints := [], selection := true }
    match st1.tempObject with
    | none => st1
    | some obj =>
      if obj.type = "group" ∧ arrowTooShort st.width st.height startPoint raw = true then
        { st1 with objects := st1.objects.erase obj, tempObject := none }
      else if obj.type = "rect" ∧ optLt obj.width minRectSize = true ∧ optLt obj.height minRectSize = true then
        { st1 with objects := st1.objects.erase obj, tempObject := none }
      else if obj.type = "path" ∧ (pathExtents obj.pathPoints).1 < 10 ∧ (pathExtents obj.pathPoints).2 < 10 then
        { st1 with objects := st1.objects.erase obj, tempObject := none }
      else
        saveToHistory { st1 with tempObject := none }

/-- Handler `handleTextEditEnd` (AnnotationCanvas.jsx lines 675-687): delete an
empty/whitespace-only textbox without saving, otherwise save to history;
either way arm the just-exited flag. -/
def handleTextEditEnd (st : CanvasState) (textbox : FabricObject) : CanvasState :=
  let st1 :=
    if emptyText textbox.text then
      { st with objects := st.objects.erase textbox }
    else
      saveToHistory st
  { st1 with justExitedTextEdit := true }

/-- Method `undo` (AnnotationCanvas.jsx lines 111-132): no-op for a stack of at
most one entry; otherwise pop the top entry and reload the scene from the
entry now on top (the popped stack's last element — the `none` branch is
unreachable since the remaining stack is nonempty). -/
def undo (st : CanvasState) : CanvasState :=
  if st.history.length ≤ 1 then st
  else
    let rest := st.history.dropLast
    match rest.getLast? with
    | some previousState => { st with history := rest, objects := previousState.objects }
    | none => { st with history := rest, objects := [] }

/-- Method `clear` (AnnotationCanvas.jsx lines 133-142): empty the scene and push
the resulting empty snapshot. -/
def clearCanvas (st : CanvasState) : CanvasState :=
  let st1 := { st with objects := [] }
  { st1 with history := st1.history ++ [canvasToJSON st1] }

/-- The resize effect (AnnotationCanvas.jsx lines 236-304): when the pixel
dimensions change and the previous ones were positive, normalize the live
scene at the previous dimensions with the inline normalizer, denormalize at
the new dimensions, reload the scene and reset the history to the single
snapshot of the reloaded scene; with no objects (or no change) only the
dimensions are updated. -/
def resizeStep (st : CanvasState) (newWidth newHeight : ℚ) : CanvasState :=
  if newWidth = 0 ∨ newHeight = 0 then st
  else if (st.width ≠ newWidth ∨ st.height ≠ newHeight) ∧ 0 < st.width ∧ 0 < st.height then
    let currentJson := canvasToJSON st
    if currentJson.objects ≠ [] then
      let normalized := { currentJson with objects := currentJson.objects.map (resizeNormalizeObject st.width st.height) }
      let denormalized := denormalizeData normalized newWidth newHeight
      let st1 := { st with objects := denormalized.objects, width := newWidth, height := newHeight }
      { st1 with history := [canvasToJSON st1] }
    else
      { st with width := newWidth, height := newHeight }
  else
    { st with width := newWidth, height := newHeight }

/-- Canvas initialization (AnnotationCanvas.jsx lines 190-231): denormalize
any nonempty initial payload at the mount dimensions, load it, and seed the
history with the single snapshot of the loaded scene. -/
def initCanvas (initialData : Option Scene) (width height : ℚ) (tool color : String) : CanvasState :=
  let objects :=
    match initialData with
    | some d => if d.objects ≠ [] then (denormalizeData d width height).objects else []
    | none => []
  let st : CanvasState :=
    { width := width, height := height, objects := objects, history := []
      isDrawing := false, startPoint := none, tempObject := none, drawPoints := []
      justExitedTextEdit := false, selection := true, activeTool := tool, activeColor := color }
  { st with history := [canvasToJSON st] }

/-- The events that drive one page's canvas state. `objectModified` is the
`object:modified` handler (a direct `saveToHistory`, line 672). -/
inductive CanvasOp where
  | mouseDown (raw : Point) (hitTarget : Bool)
  | mouseMove (raw : Point)
  | mouseUp (raw : Point)
  | objectModified
  | textEditEnd (textbox : FabricObject)
  | undoOp
  | clearOp
  | resize (newWidth newHeight : ℚ)
  deriving DecidableEq

/-- Dispatch one event to its handler. -/
def applyOp : CanvasOp → CanvasState → CanvasState
  | .mouseDown raw hitTarget, st => handleMouseDown st raw hitTarget
  | .mouseMove raw, st => handleMouseMove st raw
  | .mouseUp raw, st => handleMouseUp st raw
  | .objectModified, st => saveToHistory st
  | .textEditEnd textbox, st => handleTextEditEnd st textbox
  | .undoOp, st => undo st
  | .clearOp, st => clearCanvas st
  | .resize w h, st => resizeStep st w h

/-- The data read by the `object:moving` / `object:scaling` handlers: the
object's `left`/`top`, its `getBoundingRect()` at handler entry, and the
fields the scaling handler's max-scale computation reads. -/
structure InteractEvent where
  left : ℚ
  top : ℚ
  brLeft : ℚ
  brTop : ℚ
  brWidth : ℚ
  brHeight : ℚ
  objWidth : ℚ
  objHeight : ℚ
  originX : String
  originY : String
  deriving DecidableEq

/-- Handler `handleObjectMoving` (AnnotationCanvas.jsx lines 600-622): the four edge
corrections applied in sequence, each reading the bounding rect captured at
handler entry.  Returns the object's final `(left, top)`. -/
def handleObjectMoving (e : InteractEvent) (width height : ℚ) : ℚ × ℚ :=
  let l1 := if e.brLeft < 0 then e.left - e.brLeft else e.left
  let l2 := if e.brLeft + e.brWidth > width then l1 - (e.brLeft + e.brWidth - width) else l1
  let t1 := if e.brTop < 0 then e.top - e.brTop else e.top
  let t2 := if e.brTop + e.brHeight > height then t1 - (e.brTop + e.brHeight - height) else t1
  (l2, t2)

/-- Handler `handleObjectScaling` (AnnotationCanvas.jsx lines 626-668): inside the
boundary-violation guard, the source computes `maxScaleX`/`maxScaleY` and
then never uses them; only the edge-by-edge position corrections (identical
to the moving handler's) take effect.  Returns the final `(left, top)`. -/
def handleObjectScaling (e : InteractEvent) (width height : ℚ) : ℚ × ℚ :=
  if e.brLeft < 0 ∨ e.brLeft + e.brWidth > width ∨ e.brTop < 0 ∨ e.brTop + e.brHeight > height then
    let _maxScaleX := min (e.left / jsOr (e.objWidth / 2 * (if e.originX = "center" then 1 else 0)) 1)
                          ((width - e.left) / jsOr (e.objWidth / 2) 1)
    let _maxScaleY := min (e.top / jsOr (e.objHeight / 2 * (if e.originY = "center" then 1 else 0)) 1)
                          ((height - e.top) / jsOr (e.objHeight / 2) 1)
    let l1 := if e.brLeft < 0 then e.left - e.brLeft else e.left
    let l2 := if e.brLeft + e.brWidth > width then l1 - (e.brLeft + e.brWidth - width) else l1
    let t1 := if e.brTop < 0 then e.top - e.brTop else e.top
    let t2 := if e.brTop + e.brHeight > height then t1 - (e.brTop + e.brHeight - height) else t1
    (l2, t2)
  else
    (e.left, e.top)

/-- The bounding rect after the moving handler: a pure translation of
`left`/`top` translates the bounding rect by the same vector (fabric
recomputes it from the object's position after `setCoords()`).  Returns the
final bounding rect's `(left, top)`; its dimensions are unchanged. -/
def movedBoundingRect (e : InteractEvent) (width height : ℚ) : ℚ × ℚ :=
  ((handleObjectMoving e width height).1 - e.left + e.brLeft,
   (handleObjectMoving e width height).2 - e.top + e.brTop)

/-- The bounding rect after the scaling handler's position corrections. -/
def scaledBoundingRect (e : InteractEvent) (width height : ℚ) : ℚ × ℚ :=
  ((handleObjectScaling e width height).1 - e.left + e.brLeft,
   (handleObjectScaling e width height).2 - e.top + e.brTop)

/-- Lodash `debounce(fn, wait)` with default (trailing-edge) semantics, as
used by `getSaveFunction` (App.jsx lines 91-98): each call re-arms the timer
to `wait` after that call; the function fires with the arguments of the last
call once a full `wait` elapses with no further call.  Given the
time-ordered call list, returns the list of `(fire time, payload)` saves. -/
def debounceEmits (wait : ℚ) : List (ℚ × Scene) → List (ℚ × Scene)
  | [] => []
  | [(t, p)] => [(t + wait, p)]
  | (t, p) :: (t2, p2) :: rest =>
    if t2 < t + wait then debounceEmits wait ((t2, p2) :: rest)
    else (t + wait, p) :: debounceEmits wait ((t2, p2) :: rest)

/-- The debounce interval of `getSaveFunction` (App.jsx line 96). -/
def debounceWait : ℚ := 500

/-- The `handleCanvasChange` routing (App.jsx lines 135-140): each page has its
own debounced save, so the saves issued for a page are the debounce of the
edits addressed to that page.  An edit is `(page, time, payload)`. -/
def pageSaves (edits : List (ℕ × ℚ × Scene)) (page : ℕ) : List (ℚ × Scene) :=
  debounceEmits debounceWait ((edits.filter (fun e => e.1 = page)).map (fun e => e.2))

/-! Concrete instances used by witnesses and counterexamples. -/

/-- A committed-form object (scale already baked to 1) exercising every
optional geometric field. -/
def sampleObject : FabricObject :=
  { type := "rect", left := 40, top := 30, scaleX := 1, scaleY := 1
    width := some 10, height := some 20, fontSize := some 18
    x1 := some 0, y1 := some 3, x2 := some 7, y2 := some 9
    strokeWidth := some 2, radius := some 5
    stroke := some ("#EF4444"), fill := some ("transparent")
    text := none, fontFamily := none, pathPoints := [] }

/-- A one-object committed-form scene. -/
def sampleScene : Scene := { version := fabricJSONVersion, objects := [sampleObject] }

/-- An object carrying an unbaked scale factor. -/
def scaledObject : FabricObject := { sampleObject with scaleX := 2 }

/-- A scene containing an object with an unbaked scale factor. -/
def scaledScene : Scene := { version := fabricJSONVersion, objects := [scaledObject] }

/-- A quiescent canvas state at 100 × 100 holding `sampleObject`, with a
two-entry history. -/
def resizeState : CanvasState :=
  { width := 100, height := 100, objects := [sampleObject]
    history := [sampleScene, sampleScene]
    isDrawing := false, startPoint := none, tempObject := none, drawPoints := []
    justExitedTextEdit := false, selection := true
    activeTool := "select", activeColor := "#EF4444" }

/-- The arrow preview of a drag from (100, 100) to (110, 100). -/
def arrowPreviewObj : FabricObject := mkArrowGroup ⟨100, 100⟩ 110 100 "#EF4444"

/-- An 800 × 600 canvas mid-arrow-drag from (100, 100), with the preview on
the canvas. -/
def arrowState : CanvasState :=
  { width := 800, height := 600, objects := [arrowPreviewObj]
    history := [sampleScene]
    isDrawing := true, startPoint := some ⟨100, 100⟩
    tempObject := some arrowPreviewObj, drawPoints := []
    justExitedTextEdit := false, selection := false
    activeTool := "arrow", activeColor := "#EF4444" }

/-- The box preview of a drag from (0, 0) to (20, 5): 19 × 5 after the
stroke-inset clamping of the x coordinates. -/
def boxPreviewObj : FabricObject := mkRect 1 0 19 5 "#EF4444"

/-- An 800 × 600 canvas mid-box-drag, with the preview on the canvas. -/
def boxState : CanvasState :=
  { width := 800, height := 600, objects := [boxPreviewObj]
    history := [sampleScene]
    isDrawing := true, startPoint := some ⟨0, 0⟩
    tempObject := some boxPreviewObj, drawPoints := []
    justExitedTextEdit := false, selection := false
    activeTool := "box", activeColor := "#EF4444" }

/-- An 800 × 600 canvas with the text tool armed and nothing drawn yet. -/
def textState : CanvasState :=
  { width := 800, height := 600, objects := [sampleObject]
    history := [sampleScene]
    isDrawing := false, startPoint := none, tempObject := none, drawPoints := []
    justExitedTextEdit := false, selection := true
    activeTool := "text", activeColor := "#EF4444" }

/-- A moving event whose bounding box (120 wide) exceeds a 100-wide canvas:
the right-edge correction pushes the left edge to -20. -/
def oversizedEvent : InteractEvent :=
  { left := 0, top := 0, brLeft := 0, brTop := 0, brWidth := 120, brHeight := 10
    objWidth := 120, objHeight := 10, originX := "left", originY := "top" }

/-- A moving event whose proposed bounding-box left edge is -20. -/
def clampEvent : InteractEvent :=
  { left := 5, top := 10, brLeft := -20, brTop := 0, brWidth := 30, brHeight := 40
    objWidth := 30, objHeight := 40, originX := "left", originY := "top" }

/-- Five edits to page 1 inside one 500-unit debounce window. -/
def burstEdits : List (ℕ × ℚ × Scene) :=
  [(1, 0, sampleScene), (1, 100, sampleScene), (1, 200, sampleScene),
   (1, 300, sampleScene), (1, 400, scaledScene)]

end RedInk

namespace RedInk

/-! ### C1: normalize/denormalize round trip -/

theorem truthyField_roundtrip (w : ℚ) (hw : w ≠ 0) (o : Option ℚ) :
    (if optTruthy (if optTruthy o then o.map (fun v => v * 1 / w) else o) then
      (if optTruthy o then o.map (fun v => v * 1 / w) else o).map (fun v => v * w)
    else (if optTruthy o then o.map (fun v => v * 1 / w) else o)) = o := by
  rcases o with _ | v
  · simp [optTruthy]
  · by_cases hv : v = 0
    · simp [optTruthy, hv]
    · have hvw : v / w ≠ 0 := div_ne_zero hv hw
      simp [optTruthy, hv, hvw, div_mul_cancel₀ _ hw]

theorem someField_roundtrip (w : ℚ) (hw : w ≠ 0) (o : Option ℚ) :
    (if ((if o.isSome then o.map (fun v => v * 1 / w) else o)).isSome then
      (if o.isSome then o.map (fun v => v * 1 / w) else o).map (fun v => v * w)
    else (if o.isSome then o.map (fun v => v * 1 / w) else o)) = o := by
  rcases o with _ | v
  · simp
  · simp [div_mul_cancel₀ _ hw]

theorem normalize_denormalize_object (w h : ℚ) (hw : w ≠ 0) (hh : h ≠ 0)
    (o : FabricObject) (hsx : o.scaleX = 1) (hsy : o.scaleY = 1) :
    denormalizeObject w h (normalizeObject w h o) = o := by
  cases o with
  | mk type left top scaleX scaleY width height fontSize x1 y1 x2 y2 strokeWidth radius stroke fill text fontFamily pathPoints =>
    simp only at hsx hsy
    subst hsx hsy
    simp only [normalizeObject, denormalizeObject, jsOr, if_neg one_ne_zero]
    congr 1 <;>
      first
        | rfl
        | exact div_mul_cancel₀ _ hw
        | exact div_mul_cancel₀ _ hh
        | exact truthyField_roundtrip w hw _
        | exact truthyField_roundtrip h hh _
        | exact someField_roundtrip w hw _
        | exact someField_roundtrip h hh _

/-- C1 (amended): for canvas dimensions `w, h > 0` and a scene whose objects
all carry the committed scale `scaleX = scaleY = 1` (as every
`canvas.toJSON()` snapshot of committed annotations does), denormalizing the
normalization at the same `(w, h)` returns the scene exactly.  The
restriction is forced: `normalizeData` bakes a non-unit scale factor into the
stored size and resets the scale to 1, which `denormalizeData` cannot undo
(see `C1_counterexample`). -/
theorem C1_roundtrip_amended (s : Scene) (w h : ℚ) (hw : 0 < w) (hh : 0 < h)
    (hscale : ∀ o ∈ s.objects, o.scaleX = 1 ∧ o.scaleY = 1) :
    denormalizeData (normalizeData s w h) w h = s := by
  have hw0 : w ≠ 0 := ne_of_gt hw
  have hh0 : h ≠ 0 := ne_of_gt hh
  have hcond : ¬(w = 0 ∨ h = 0) := by
    push_neg
    exact ⟨hw0, hh0⟩
  cases s with
  | mk version objects =>
    simp only [normalizeData, denormalizeData, hcond, if_false, List.map_map,
      Scene.mk.injEq, true_and]
    have hpt : ∀ o ∈ objects, (denormalizeObject w h ∘ normalizeObject w h) o = id o := by
      intro o ho
      exact normalize_denormalize_object w h hw0 hh0 o (hscale o ho).1 (hscale o ho).2
    rw [List.map_congr_left hpt, List.map_id]

/-- Witness for `C1_roundtrip_amended` at a concrete scene and 200 × 100
canvas. -/
theorem C1_roundtrip_amended_witness :
    (0 : ℚ) < 200 ∧ (0 : ℚ) < 100 ∧
      denormalizeData (normalizeData sampleScene 200 100) 200 100 = sampleScene :=
  ⟨by norm_num, by norm_num,
    C1_roundtrip_amended sampleScene 200 100 (by norm_num) (by norm_num) (by decide)⟩

/-- C1 counterexample: for an object with an unbaked scale factor
(`scaleX = 2`, `width = 10`), normalizing at 100 × 100 bakes the scale into
the stored width, so denormalizing at the same dimensions returns width 20
and scale 1 — not the original scene.  The unrestricted round-trip claim is
false. -/
theorem C1_counterexample :
    denormalizeData (normalizeData scaledScene 100 100) 100 100 ≠ scaledScene := by
  intro hcontra
  have hwidth :
      (denormalizeData (normalizeData scaledScene 100 100) 100 100).objects.map (fun o => o.width)
        = scaledScene.objects.map (fun o => o.width) := by
    rw [hcontra]
  rw [show (denormalizeData (normalizeData scaledScene 100 100) 100 100).objects.map (fun o => o.width) = [some 20] by
        norm_num [denormalizeData, normalizeData, denormalizeObject, normalizeObject,
          scaledScene, scaledObject, sampleObject, optTruthy, jsOr],
      show scaledScene.objects.map (fun o => o.width) = [some 10] by
        norm_num [scaledScene, scaledObject, sampleObject]] at hwidth
  simp at hwidth

/-! ### C7: resize stability and resize behavior -/

theorem truthyField_backtrip (w : ℚ) (hw : w ≠ 0) (o : Option ℚ) :
    (if optTruthy (if optTruthy o then o.map (fun v => v * w) else o) then
      (if optTruthy o then o.map (fun v => v * w) else o).map (fun v => v * 1 / w)
    else (if optTruthy o then o.map (fun v => v * w) else o)) = o := by
  rcases o with _ | v
  · simp [optTruthy]
  · by_cases hv : v = 0
    · simp [optTruthy, hv]
    · have hvw : v * w ≠ 0 := mul_ne_zero hv hw
      simp [optTruthy, hv, hvw, mul_div_cancel_right₀ _ hw]

theorem someField_backtrip (w : ℚ) (hw : w ≠ 0) (o : Option ℚ) :
    (if ((if o.isSome then o.map (fun v => v * w) else o)).isSome then
      (if o.isSome then o.map (fun v => v * w) else o).map (fun v => v * 1 / w)
    else (if o.isSome then o.map (fun v => v * w) else o)) = o := by
  rcases o with _ | v
  · simp
  · simp [mul_div_cancel_right₀ _ hw]

theorem denormalize_normalize_object (w h : ℚ) (hw : w ≠ 0) (hh : h ≠ 0)
    (o : FabricObject) (hsx : o.scaleX = 1) (hsy : o.scaleY = 1) :
    normalizeObject w h (denormalizeObject w h o) = o := by
  cases o with
  | mk type left top scaleX scaleY width height fontSize x1 y1 x2 y2 strokeWidth radius stroke fill text fontFamily pathPoints =>
    simp only at hsx hsy
    subst hsx hsy
    simp only [normalizeObject, denormalizeObject, jsOr, if_neg one_ne_zero]
    congr 1 <;>
      first
        | rfl
        | exact mul_div_cancel_right₀ _ hw
        | exact mul_div_cancel_right₀ _ hh
        | exact truthyField_backtrip w hw _
        | exact truthyField_backtrip h hh _
        | exact someField_backtrip w hw _
        | exact someField_backtrip h hh _

/-- For a payload whose objects all carry the stored scale 1 (as every
`normalizeData` output does), denormalizing and re-normalizing at the same
target dimensions is the identity. -/
theorem denormalize_normalize_payload (p : Scene) (w h : ℚ) (hw : w ≠ 0) (hh : h ≠ 0)
    (hscale : ∀ o ∈ p.objects, o.scaleX = 1 ∧ o.scaleY = 1) :
    normalizeData (denormalizeData p w h) w h = p := by
  have hcond : ¬(w = 0 ∨ h = 0) := by
    push_neg
    exact ⟨hw, hh⟩
  cases p with
  | mk version objects =>
    simp only [normalizeData, denormalizeData, hcond, if_false, List.map_map,
      Scene.mk.injEq, true_and]
    have hpt : ∀ o ∈ objects, (normalizeObject w h ∘ denormalizeObject w h) o = id o := by
      intro o ho
      exact denormalize_normalize_object w h hw hh o (hscale o ho).1 (hscale o ho).2
    rw [List.map_congr_left hpt, List.map_id]

/-- Every object of a `normalizeData` output has the stored scale 1. -/
theorem normalizeData_scale_one (s : Scene) (w h : ℚ) (hcond : ¬(w = 0 ∨ h = 0)) :
    ∀ o ∈ (normalizeData s w h).objects, o.scaleX = 1 ∧ o.scaleY = 1 := by
  intro o ho
  simp only [normalizeData, hcond, if_false, List.mem_map] at ho
  obtain ⟨o', _, rfl⟩ := ho
  exact ⟨rfl, rfl⟩

/-- C7 (amended): one resize round trip introduces no drift, with the
re-normalization taken at the *new* dimensions `(w2, h2)` — the claim's
re-normalization at `(w1, h1)` is false (see `C7_counterexample`).  And on a
resize of a nonempty scene, the live scene is replaced by the
denormalization at the new dimensions of the inline normalization (which
skips line endpoints) at the previous dimensions, and the history is reset
to the single snapshot of the new state. -/
theorem C7_resize_amended (s : Scene) (w1 h1 w2 h2 : ℚ) (st : CanvasState)
    (hw1 : 0 < w1) (hh1 : 0 < h1) (hw2 : 0 < w2) (hh2 : 0 < h2)
    (hpw : 0 < st.width) (hph : 0 < st.height)
    (hchange : st.width ≠ w2 ∨ st.height ≠ h2)
    (hobjs : st.objects ≠ []) :
    normalizeData (denormalizeData (normalizeData s w1 h1) w2 h2) w2 h2 = normalizeData s w1 h1
    ∧ (resizeStep st w2 h2).objects
        = (denormalizeData { version := fabricJSONVersion, objects := st.objects.map (resizeNormalizeObject st.width st.height) } w2 h2).objects
    ∧ (resizeStep st w2 h2).history = [canvasToJSON (resizeStep st w2 h2)]
    ∧ (resizeStep st w2 h2).width = w2 ∧ (resizeStep st w2 h2).height = h2 := by
  have hcond1 : ¬(w1 = 0 ∨ h1 = 0) := by
    push_neg
    exact ⟨ne_of_gt hw1, ne_of_gt hh1⟩
  have hcond2 : ¬(w2 = 0 ∨ h2 = 0) := by
    push_neg
    exact ⟨ne_of_gt hw2, ne_of_gt hh2⟩
  refine ⟨?_, ?_⟩
  · exact denormalize_normalize_payload _ w2 h2 (ne_of_gt hw2) (ne_of_gt hh2)
      (normalizeData_scale_one s w1 h1 hcond1)
  · simp only [resizeStep, canvasToJSON, ne_eq, hcond2, hchange, hpw, hph, hobjs,
      not_false_eq_true, and_self, if_true, if_false, ite_true, ite_false]

/-- Witness for `C7_resize_amended`: a resize of `resizeState` from
100 × 100 to 200 × 50. -/
theorem C7_resize_amended_witness :
    (0 : ℚ) < resizeState.width ∧ resizeState.objects ≠ [] ∧
      (normalizeData (denormalizeData (normalizeData sampleScene 100 100) 200 50) 200 50
          = normalizeData sampleScene 100 100
        ∧ (resizeStep resizeState 200 50).objects
            = (denormalizeData { version := fabricJSONVersion, objects := resizeState.objects.map (resizeNormalizeObject resizeState.width resizeState.height) } 200 50).objects
        ∧ (resizeStep resizeState 200 50).history = [canvasToJSON (resizeStep resizeState 200 50)]
        ∧ (resizeStep resizeState 200 50).width = 200 ∧ (resizeStep resizeState 200 50).height = 50) :=
  ⟨by norm_num [resizeState], by simp [resizeState],
    C7_resize_amended sampleScene 100 100 200 50 resizeState (by norm_num) (by norm_num)
      (by norm_num) (by norm_num) (by norm_num [resizeState]) (by norm_num [resizeState])
      (Or.inl (by norm_num [resizeState])) (by simp [resizeState])⟩

/-- C7 counterexample: re-normalizing at the *original* dimensions
`(w1, h1) = (100, 100)` after denormalizing at `(w2, h2) = (200, 200)` does
not return the original payload (the stored left fraction doubles from 2/5
to 4/5); the drift-free re-normalization is the one at `(w2, h2)`. -/
theorem C7_counterexample :
    normalizeData (denormalizeData (normalizeData sampleScene 100 100) 200 200) 100 100
      ≠ normalizeData sampleScene 100 100 := by
  intro hcontra
  have hleft :
      (normalizeData (denormalizeData (normalizeData sampleScene 100 100) 200 200) 100 100).objects.map (fun o => o.left)
        = (normalizeData sampleScene 100 100).objects.map (fun o => o.left) := by
    rw [hcontra]
  rw [show (normalizeData (denormalizeData (normalizeData sampleScene 100 100) 200 200) 100 100).objects.map (fun o => o.left) = [(4 : ℚ)/5] by
        norm_num [denormalizeData, normalizeData, denormalizeObject, normalizeObject,
          sampleScene, sampleObject, optTruthy, jsOr],
      show (normalizeData sampleScene 100 100).objects.map (fun o => o.left) = [(2 : ℚ)/5] by
        norm_num [normalizeData, normalizeObject, sampleScene, sampleObject, optTruthy, jsOr]] at hleft
  norm_num at hleft

/-! ### C10: normalize/denormalize touch only geometric fields -/

theorem nonGeom_normalizeObject (w h : ℚ) (o : FabricObject) :
    nonGeom (normalizeObject w h o) = nonGeom o := rfl

theorem nonGeom_denormalizeObject (w h : ℚ) (o : FabricObject) :
    nonGeom (denormalizeObject w h o) = nonGeom o := rfl

/-- C10: for every payload and dimensions, `normalizeData` and
`denormalizeData` keep the object count and order and leave the
non-geometric data of every object (type, stroke and fill colors, text
content, font family, path vertices) and the scene-level fields unchanged —
only the geometric fields can be rewritten. -/
theorem C10_frame_preservation (j : Scene) (w h tw th : ℚ) :
    (normalizeData j w h).objects.length = j.objects.length
    ∧ (normalizeData j w h).objects.map nonGeom = j.objects.map nonGeom
    ∧ (normalizeData j w h).version = j.version
    ∧ (denormalizeData j tw th).objects.length = j.objects.length
    ∧ (denormalizeData j tw th).objects.map nonGeom = j.objects.map nonGeom
    ∧ (denormalizeData j tw th).version = j.version := by
  refine ⟨?_, ?_, ?_, ?_, ?_, ?_⟩
  · by_cases hc : w = 0 ∨ h = 0 <;> simp [normalizeData, hc]
  · by_cases hc : w = 0 ∨ h = 0
    · simp [normalizeData, hc]
    · simp only [normalizeData, hc, if_false, List.map_map]
      exact List.map_congr_left (fun o _ => nonGeom_normalizeObject w h o)
  · by_cases hc : w = 0 ∨ h = 0 <;> simp [normalizeData, hc]
  · by_cases hc : tw = 0 ∨ th = 0 <;> simp [denormalizeData, hc]
  · by_cases hc : tw = 0 ∨ th = 0
    · simp [denormalizeData, hc]
    · simp only [denormalizeData, hc, if_false, List.map_map]
      exact List.map_congr_left (fun o _ => nonGeom_denormalizeObject tw th o)
  · by_cases hc : tw = 0 ∨ th = 0 <;> simp [denormalizeData, hc]

/-! ### C2: arrow length threshold at pointer-up -/

/-- C2: at pointer-up with an arrow preview under construction, a squared
clamped-endpoint distance below 25² removes the preview, commits nothing
and pushes no history entry; at 25² or more the arrow is committed (scene
unchanged — the preview object stays) and exactly one history entry is
pushed. -/
theorem C2_arrow_commit (st : CanvasState) (raw : Point) (obj : FabricObject) (sp : Point)
    (hdraw : st.isDrawing = true)
    (htemp : st.tempObject = some obj)
    (htype : obj.type = "group")
    (hstart : st.startPoint = some sp)
    (hmem : obj ∈ st.objects) :
    (arrowLengthSq st.width st.height sp raw < minArrowLength ^ 2 →
      (handleMouseUp st raw).objects = st.objects.erase obj
      ∧ (handleMouseUp st raw).objects.length + 1 = st.objects.length
      ∧ (handleMouseUp st raw).history = st.history
      ∧ (handleMouseUp st raw).tempObject = none)
    ∧ (minArrowLength ^ 2 ≤ arrowLengthSq st.width st.height sp raw →
      (handleMouseUp st raw).objects = st.objects
      ∧ (handleMouseUp st raw).history = st.history ++ [canvasToJSON st]
      ∧ (handleMouseUp st raw).history.length = st.history.length + 1) := by
  have hlen : 0 < st.objects.length := List.length_pos.mpr (fun he => by simp [he] at hmem)
  constructor
  · intro hshort
    have hc1 : obj.type = "group" ∧ arrowTooShort st.width st.height st.startPoint raw = true := by
      refine ⟨htype, ?_⟩
      rw [hstart]
      simpa only [arrowTooShort] using decide_eq_true hshort
    simp only [handleMouseUp, hdraw, Bool.true_eq_false, if_false, htemp]
    rw [if_pos hc1]
    refine ⟨rfl, ?_, rfl, rfl⟩
    have herase := List.length_erase_of_mem hmem
    simp only [herase]
    omega
  · intro hlong
    have hc1 : ¬(obj.type = "group" ∧ arrowTooShort st.width st.height st.startPoint raw = true) := by
      rintro ⟨-, hts⟩
      rw [hstart] at hts
      simp only [arrowTooShort, decide_eq_true_eq] at hts
      exact absurd hts (not_lt.mpr hlong)
    have hc2 : ¬(obj.type = "rect" ∧ optLt obj.width minRectSize = true ∧ optLt obj.height minRectSize = true) := by
      rintro ⟨hr, -⟩
      rw [htype] at hr
      simp at hr
    have hc3 : ¬(obj.type = "path" ∧ (pathExtents obj.pathPoints).1 < 10 ∧ (pathExtents obj.pathPoints).2 < 10) := by
      rintro ⟨hr, -⟩
      rw [htype] at hr
      simp at hr
    simp only [handleMouseUp, hdraw, Bool.true_eq_false, if_false, htemp]
    rw [if_neg hc1, if_neg hc2, if_neg hc3]
    simp only [saveToHistory, canvasToJSON, List.length_append, List.length_cons,
      List.length_nil]
    exact ⟨trivial, trivial, trivial⟩

/-- Witness for `C2_arrow_commit`: a drag from (100, 100) released at
(110, 100) — squared length 100 < 625 — is rejected. -/
theorem C2_arrow_commit_witness :
    arrowLengthSq arrowState.width arrowState.height ⟨100, 100⟩ ⟨110, 100⟩ < minArrowLength ^ 2
    ∧ (handleMouseUp arrowState ⟨110, 100⟩).objects = arrowState.objects.erase arrowPreviewObj
    ∧ (handleMouseUp arrowState ⟨110, 100⟩).history = arrowState.history
    ∧ (handleMouseUp arrowState ⟨110, 100⟩).tempObject = none := by
  have hdist : arrowLengthSq arrowState.width arrowState.height ⟨100, 100⟩ ⟨110, 100⟩ < minArrowLength ^ 2 := by
    norm_num [arrowLengthSq, clampPoint, minArrowLength, arrowState, min_def, max_def]
  have happ := C2_arrow_commit arrowState ⟨110, 100⟩ arrowPreviewObj ⟨100, 100⟩ rfl rfl rfl rfl
    (by simp [arrowState])
  exact ⟨hdist, (happ.1 hdist).1, (happ.1 hdist).2.2.1, (happ.1 hdist).2.2.2⟩

/-! ### C3: box/stroke minimum-size threshold at pointer-up -/

/-- C3: at pointer-up, a box preview (read through its `width`/`height`
fields) or a freehand-path preview (read through its point-extent bounding
box) is removed with no history entry exactly when both dimensions are
below 10; otherwise it is committed and exactly one history entry is
pushed. -/
theorem C3_small_shape_rejection (st : CanvasState) (raw : Point) (obj : FabricObject) (bw bh : ℚ)
    (hdraw : st.isDrawing = true)
    (htemp : st.tempObject = some obj)
    (hmem : obj ∈ st.objects)
    (hcase : (obj.type = "rect" ∧ obj.width = some bw ∧ obj.height = some bh)
      ∨ (obj.type = "path" ∧ pathExtents obj.pathPoints = (bw, bh))) :
    (bw < 10 ∧ bh < 10 →
      (handleMouseUp st raw).objects = st.objects.erase obj
      ∧ (handleMouseUp st raw).objects.length + 1 = st.objects.length
      ∧ (handleMouseUp st raw).history = st.history
      ∧ (handleMouseUp st raw).tempObject = none)
    ∧ (10 ≤ bw ∨ 10 ≤ bh →
      (handleMouseUp st raw).objects = st.objects
      ∧ (handleMouseUp st raw).history = st.history ++ [canvasToJSON st]
      ∧ (handleMouseUp st raw).history.length = st.history.length + 1) := by
  have hlen : 0 < st.objects.length := List.length_pos.mpr (fun he => by simp [he] at hmem)
  have herase := List.length_erase_of_mem hmem
  rcases hcase with ⟨htype, hw, hh⟩ | ⟨htype, hpe⟩
  · have hc1 : ¬(obj.type = "group" ∧ arrowTooShort st.width st.height st.startPoint raw = true) := by
      rintro ⟨hr, -⟩
      rw [htype] at hr
      simp at hr
    have hc3 : ¬(obj.type = "path" ∧ (pathExtents obj.pathPoints).1 < 10 ∧ (pathExtents obj.pathPoints).2 < 10) := by
      rintro ⟨hr, -⟩
      rw [htype] at hr
      simp at hr
    constructor
    · intro ⟨hbw, hbh⟩
      have hc2 : obj.type = "rect" ∧ optLt obj.width minRectSize = true ∧ optLt obj.height minRectSize = true := by
        refine ⟨htype, ?_, ?_⟩ <;>
          simp only [optLt, hw, hh, minRectSize, decide_eq_true_eq] <;> assumption
      simp only [handleMouseUp, hdraw, Bool.true_eq_false, if_false, htemp]
      rw [if_neg hc1, if_pos hc2]
      refine ⟨rfl, ?_, rfl, rfl⟩
      simp only [herase]
      omega
    · intro hbig
      have hc2 : ¬(obj.type = "rect" ∧ optLt obj.width minRectSize = true ∧ optLt obj.height minRectSize = true) := by
        rintro ⟨-, hw2, hh2⟩
        simp only [optLt, hw, hh, minRectSize, decide_eq_true_eq] at hw2 hh2
        rcases hbig with hb | hb <;> [exact absurd hw2 (not_lt.mpr hb); exact absurd hh2 (not_lt.mpr hb)]
      simp only [handleMouseUp, hdraw, Bool.true_eq_false, if_false, htemp]
      rw [if_neg hc1, if_neg hc2, if_neg hc3]
      simp only [saveToHistory, canvasToJSON, List.length_append, List.length_cons,
        List.length_nil]
      exact ⟨trivial, trivial, trivial⟩
  · have hc1 : ¬(obj.type = "group" ∧ arrowTooShort st.width st.height st.startPoint raw = true) := by
      rintro ⟨hr, -⟩
      rw [htype] at hr
      simp at hr
    have hc2 : ¬(obj.type = "rect" ∧ optLt obj.width minRectSize = true ∧ optLt obj.height minRectSize = true) := by
      rintro ⟨hr, -⟩
      rw [htype] at hr
      simp at hr
    constructor
    · intro ⟨hbw, hbh⟩
      have hc3 : obj.type = "path" ∧ (pathExtents obj.pathPoints).1 < 10 ∧ (pathExtents obj.pathPoints).2 < 10 := by
        refine ⟨htype, ?_, ?_⟩ <;> rw [hpe] <;> assumption
      simp only [handleMouseUp, hdraw, Bool.true_eq_false, if_false, htemp]
      rw [if_neg hc1, if_neg hc2, if_pos hc3]
      refine ⟨rfl, ?_, rfl, rfl⟩
      simp only [herase]
      omega
    · intro hbig
      have hc3 : ¬(obj.type = "path" ∧ (pathExtents obj.pathPoints).1 < 10 ∧ (pathExtents obj.pathPoints).2 < 10) := by
        rintro ⟨-, hw2, hh2⟩
        rw [hpe] at hw2 hh2
        rcases hbig with hb | hb <;> [exact absurd hw2 (not_lt.mpr hb); exact absurd hh2 (not_lt.mpr hb)]
      simp only [handleMouseUp, hdraw, Bool.true_eq_false, if_false, htemp]
      rw [if_neg hc1, if_neg hc2, if_neg hc3]
      simp only [saveToHistory, canvasToJSON, List.length_append, List.length_cons,
        List.length_nil]
      exact ⟨trivial, trivial, trivial⟩

/-- Witness for `C3_small_shape_rejection`: the 19 × 5 box preview of a
drag from (0, 0) to (20, 5) — width ≥ 10 — is committed with one history
push. -/
theorem C3_small_shape_rejection_witness :
    (10 : ℚ) ≤ 19
    ∧ (handleMouseUp boxState ⟨20, 5⟩).objects = boxState.objects
    ∧ (handleMouseUp boxState ⟨20, 5⟩).history = boxState.history ++ [canvasToJSON boxState]
    ∧ (handleMouseUp boxState ⟨20, 5⟩).history.length = boxState.history.length + 1 := by
  have happ := C3_small_shape_rejection boxState ⟨20, 5⟩ boxPreviewObj 19 5 rfl rfl
    (by simp [boxState])
    (Or.inl ⟨rfl, by norm_num [boxPreviewObj, mkRect, jsOr], by norm_num [boxPreviewObj, mkRect, jsOr]⟩)
  exact ⟨by norm_num, (happ.2 (Or.inl (by norm_num))).1, (happ.2 (Or.inl (by norm_num))).2.1,
    (happ.2 (Or.inl (by norm_num))).2.2⟩

/-! ### C4: empty text discarded at edit end -/

theorem length_erase_append_singleton {α : Type} [DecidableEq α] (l : List α) (a : α) :
    ((l ++ [a]).erase a).length = l.length := by
  have hmem : a ∈ l ++ [a] := by simp
  rw [List.length_erase_of_mem hmem]
  simp

/-- C4: placing a text object (pointer-down with the text tool) and ending
its edit session with empty content leaves the object count unchanged and
pushes no history entry; ending an edit session with non-whitespace content
pushes exactly one history entry and removes nothing. -/
theorem C4_empty_text_discard (st : CanvasState) (raw : Point)
    (htool : st.activeTool = "text")
    (hflag : st.justExitedTextEdit = false) :
    (∃ tb, (handleMouseDown st raw false).objects = st.objects ++ [tb]
      ∧ tb.text = some ("")
      ∧ (handleMouseDown st raw false).history = st.history
      ∧ (handleTextEditEnd (handleMouseDown st raw false) tb).objects.length = st.objects.length
      ∧ (handleTextEditEnd (handleMouseDown st raw false) tb).history = st.history)
    ∧ (∀ st2 tb2 s2, tb2.text = some s2 → s2 ≠ "" → s2.trim ≠ "" →
      (handleTextEditEnd st2 tb2).history = st2.history ++ [canvasToJSON st2]
      ∧ (handleTextEditEnd st2 tb2).history.length = st2.history.length + 1
      ∧ (handleTextEditEnd st2 tb2).objects = st2.objects) := by
  constructor
  · refine ⟨mkTextbox (max 0 (min (clampPoint raw st.width st.height).x (st.width - 300))) (clampPoint raw st.width st.height).y st.activeColor, ?_⟩
    have hstep : handleMouseDown st raw false
        = { st with
            objects := st.objects ++ [mkTextbox (max 0 (min (clampPoint raw st.width st.height).x (st.width - 300))) (clampPoint raw st.width st.height).y st.activeColor]
            isDrawing := false
            startPoint := some (clampPoint raw st.width st.height)
            selection := false } := by
      simp [handleMouseDown, htool, hflag, mkTextbox]
    rw [hstep]
    refine ⟨rfl, rfl, rfl, ?_, ?_⟩
    · have hempty : emptyText (some ("")) = true := by simp [emptyText]
      simp only [handleTextEditEnd, mkTextbox, hempty, if_true, ite_true]
      exact length_erase_append_singleton st.objects _
    · have hempty : emptyText (some ("")) = true := by simp [emptyText]
      simp only [handleTextEditEnd, mkTextbox, hempty, if_true, ite_true]
  · intro st2 tb2 s2 htext hs2 htrim
    have hne : ¬(emptyText tb2.text = true) := by
      simp only [emptyText, htext, Bool.or_eq_true, decide_eq_true_eq]
      rintro (h | h)
      · exact hs2 h
      · exact htrim h
    simp only [handleTextEditEnd]
    rw [if_neg hne]
    simp only [saveToHistory, canvasToJSON, List.length_append, List.length_cons,
      List.length_nil]
    exact ⟨trivial, trivial, trivial⟩

/-- Witness for `C4_empty_text_discard`: a text placement at (50, 60) on
`textState`. -/
theorem C4_empty_text_discard_witness :
    textState.activeTool = "text" ∧ textState.justExitedTextEdit = false
    ∧ (∃ tb, (handleMouseDown textState ⟨50, 60⟩ false).objects = textState.objects ++ [tb]
      ∧ tb.text = some ("")
      ∧ (handleMouseDown textState ⟨50, 60⟩ false).history = textState.history
      ∧ (handleTextEditEnd (handleMouseDown textState ⟨50, 60⟩ false) tb).objects.length = textState.objects.length
      ∧ (handleTextEditEnd (handleMouseDown textState ⟨50, 60⟩ false) tb).history = textState.history) :=
  ⟨rfl, rfl, (C4_empty_text_discard textState ⟨50, 60⟩ rfl rfl).1⟩

/-! ### C5: undo pops the top entry and restores the one beneath it -/

/-- C5 (amended): with at most one history entry, `undo` is a no-op; with
more, it pops exactly the most recent entry and restores the scene to the
entry now on top *as stored* — history entries are pixel-space
`canvas.toJSON()` snapshots and `undo` applies no denormalization to them
(see `C5_counterexample`). -/
theorem C5_undo_amended (st : CanvasState) :
    (st.history.length ≤ 1 → undo st = st)
    ∧ (∀ prev, 1 < st.history.length → st.history.dropLast.getLast? = some prev →
      (undo st).history = st.history.dropLast
      ∧ (undo st).history.length + 1 = st.history.length
      ∧ (undo st).objects = prev.objects) := by
  constructor
  · intro hle
    simp only [undo, if_pos hle]
  · intro prev hgt hp
    simp only [undo, if_neg (not_le.mpr hgt), hp]
    refine ⟨trivial, ?_, trivial⟩
    simp only [List.length_dropLast]
    omega

/-- Witness for `C5_undo_amended`: undoing `resizeState` (two entries) pops
to the single load entry and restores its objects. -/
theorem C5_undo_amended_witness :
    1 < resizeState.history.length
    ∧ resizeState.history.dropLast.getLast? = some sampleScene
    ∧ (undo resizeState).history = resizeState.history.dropLast
    ∧ (undo resizeState).history.length + 1 = resizeState.history.length
    ∧ (undo resizeState).objects = sampleScene.objects := by
  have happ := (C5_undo_amended resizeState).2 sampleScene (by norm_num [resizeState]) rfl
  exact ⟨by norm_num [resizeState], rfl, happ.1, happ.2.1, happ.2.2⟩

/-- C5 counterexample: history entries are stored in pixel coordinates, so
on `resizeState` (100 × 100, top remaining entry `sampleScene` with left
40) `undo` restores left 40 — not the denormalization of the entry at the
current canvas size (left 4000), which the claim's wording prescribes. -/
theorem C5_counterexample :
    (undo resizeState).objects
      ≠ (denormalizeData sampleScene resizeState.width resizeState.height).objects
    ∧ (undo resizeState).history = [sampleScene]
    ∧ (undo resizeState).objects = sampleScene.objects := by
  refine ⟨?_, rfl, rfl⟩
  intro hcontra
  have hleft : ((undo resizeState).objects.map fun o => o.left)
      = ((denormalizeData sampleScene resizeState.width resizeState.height).objects.map fun o => o.left) := by
    rw [hcontra]
  rw [show ((undo resizeState).objects.map fun o => o.left) = [(40 : ℚ)] from rfl,
    show ((denormalizeData sampleScene resizeState.width resizeState.height).objects.map fun o => o.left) = [(4000 : ℚ)] by
      norm_num [denormalizeData, denormalizeObject, sampleScene, sampleObject, resizeState,
        optTruthy]] at hleft
  norm_num at hleft

/-! ### C6: boundary clamping during move and scale -/

/-- C6 (amended): for an object whose bounding box fits in the canvas
(width ≤ canvas width, height ≤ canvas height), every move step and every
scale step leaves the bounding box inside `[0, width] × [0, height]`; a move
whose proposed bounding-box left edge is -20 lands exactly at 0, and a scale
whose bottom edge overshoots the canvas height by 15 (with the box
horizontally in bounds) lands exactly on the canvas height.  The fit
restriction is forced: for a bounding box larger than the canvas the two
edge corrections, both computed from the entry-time bounding rect, cannot
contain it (see `C6_counterexample`). -/
theorem C6_clamp_amended (e : InteractEvent) (w h : ℚ)
    (hbw : e.brWidth ≤ w) (hbh : e.brHeight ≤ h) :
    (0 ≤ (movedBoundingRect e w h).1 ∧ (movedBoundingRect e w h).1 + e.brWidth ≤ w
      ∧ 0 ≤ (movedBoundingRect e w h).2 ∧ (movedBoundingRect e w h).2 + e.brHeight ≤ h)
    ∧ (0 ≤ (scaledBoundingRect e w h).1 ∧ (scaledBoundingRect e w h).1 + e.brWidth ≤ w
      ∧ 0 ≤ (scaledBoundingRect e w h).2 ∧ (scaledBoundingRect e w h).2 + e.brHeight ≤ h)
    ∧ (e.brLeft = -20 → (movedBoundingRect e w h).1 = 0)
    ∧ (e.brTop + e.brHeight = h + 15 → 0 ≤ e.brLeft → e.brLeft + e.brWidth ≤ w →
      (scaledBoundingRect e w h).2 + e.brHeight = h) := by
  refine ⟨?_, ?_, ?_, ?_⟩
  · simp only [movedBoundingRect, handleObjectMoving]
    split_ifs <;> exact ⟨by linarith, by linarith, by linarith, by linarith⟩
  · by_cases hout : e.brLeft < 0 ∨ e.brLeft + e.brWidth > w ∨ e.brTop < 0 ∨ e.brTop + e.brHeight > h
    · simp only [scaledBoundingRect, handleObjectScaling, if_pos hout]
      split_ifs <;> exact ⟨by linarith, by linarith, by linarith, by linarith⟩
    · have hout2 := hout
      push_neg at hout2
      simp only [scaledBoundingRect, handleObjectScaling, if_neg hout]
      exact ⟨by linarith, by linarith, by linarith, by linarith⟩
  · intro h20
    simp only [movedBoundingRect, handleObjectMoving]
    split_ifs <;> linarith
  · intro h15 hinL hinR
    have hout : e.brLeft < 0 ∨ e.brLeft + e.brWidth > w ∨ e.brTop < 0 ∨ e.brTop + e.brHeight > h :=
      Or.inr (Or.inr (Or.inr (by linarith)))
    simp only [scaledBoundingRect, handleObjectScaling, if_pos hout]
    split_ifs <;> linarith

/-- Witness for `C6_clamp_amended`: a 30 × 40 box on a 100 × 50 canvas
moved so its proposed left edge is -20 ends with its left edge exactly 0. -/
theorem C6_clamp_amended_witness :
    clampEvent.brWidth ≤ 100 ∧ clampEvent.brHeight ≤ 50
    ∧ clampEvent.brLeft = -20
    ∧ (movedBoundingRect clampEvent 100 50).1 = 0
    ∧ 0 ≤ (movedBoundingRect clampEvent 100 50).2 := by
  have happ := C6_clamp_amended clampEvent 100 50 (by norm_num [clampEvent])
    (by norm_num [clampEvent])
  exact ⟨by norm_num [clampEvent], by norm_num [clampEvent], by norm_num [clampEvent],
    happ.2.2.1 (by norm_num [clampEvent]), happ.1.2.2.1⟩

/-- C6 counterexample: a moving step on an object whose bounding box is 120
wide on a 100-wide canvas ends with the bounding box's left edge at -20 —
not contained in `[0, width]`, refuting the unrestricted containment
guarantee. -/
theorem C6_counterexample : (movedBoundingRect oversizedEvent 100 50).1 < 0 := by
  norm_num [movedBoundingRect, handleObjectMoving, oversizedEvent]

/-! ### C8: shape of the history stack under every operation -/

theorem handleMouseDown_history (st : CanvasState) (raw : Point) (ht : Bool) :
    (handleMouseDown st raw ht).history = st.history := by
  simp only [handleMouseDown]
  split_ifs <;> rfl

theorem handleMouseMove_history (st : CanvasState) (raw : Point) :
    (handleMouseMove st raw).history = st.history := by
  rcases hsp : st.startPoint with _ | sp <;> simp only [handleMouseMove, hsp] <;>
    split_ifs <;> rfl

theorem handleMouseUp_history (st : CanvasState) (raw : Point) :
    (handleMouseUp st raw).history = st.history
    ∨ ∃ e, (handleMouseUp st raw).history = st.history ++ [e] := by
  by_cases hd : st.isDrawing = false
  · left
    simp only [handleMouseUp, if_pos hd]
  · rcases ht : st.tempObject with _ | obj
    · left
      simp only [handleMouseUp, if_neg hd, ht]
    · simp only [handleMouseUp, if_neg hd, ht, saveToHistory]
      split_ifs
      · left; rfl
      · left; rfl
      · left; rfl
      · right; exact ⟨_, rfl⟩

theorem handleTextEditEnd_history (st : CanvasState) (tb : FabricObject) :
    (handleTextEditEnd st tb).history = st.history
    ∨ ∃ e, (handleTextEditEnd st tb).history = st.history ++ [e] := by
  simp only [handleTextEditEnd, saveToHistory]
  split_ifs
  · left; rfl
  · right; exact ⟨_, rfl⟩

theorem undo_history (st : CanvasState) :
    (undo st).history = st.history
    ∨ (2 ≤ st.history.length ∧ (undo st).history = st.history.dropLast) := by
  by_cases hle : st.history.length ≤ 1
  · left
    simp only [undo, if_pos hle]
  · right
    refine ⟨by omega, ?_⟩
    simp only [undo, if_neg hle]
    rcases hg : st.history.dropLast.getLast? with _ | prev <;> simp only [hg]

theorem clearCanvas_history (st : CanvasState) :
    (clearCanvas st).history = st.history ++ [canvasToJSON { st with objects := [] }] := rfl

theorem resizeStep_history (st : CanvasState) (w h : ℚ) :
    (resizeStep st w h).history = st.history
    ∨ ∃ e, (resizeStep st w h).history = [e] := by
  simp only [resizeStep]
  split_ifs <;> first | (left; rfl) | (right; exact ⟨_, rfl⟩)

/-- C8 (amended): initialization seeds the history with exactly one entry;
afterwards the stack is never empty, and every operation leaves it
unchanged, appends one entry, pops exactly the top entry (undo only, when
at least two entries exist), or — for resize alone, which the claim
overlooks — resets it to a single entry (see `C8_counterexample`). -/
theorem C8_history_amended (op : CanvasOp) (st : CanvasState) (hne : st.history ≠ [])
    (d : Option Scene) (w0 h0 : ℚ) (tool color : String) :
    (initCanvas d w0 h0 tool color).history.length = 1
    ∧ (applyOp op st).history ≠ []
    ∧ ((applyOp op st).history = st.history
      ∨ (∃ e, (applyOp op st).history = st.history ++ [e])
      ∨ (op = CanvasOp.undoOp ∧ 2 ≤ st.history.length ∧ (applyOp op st).history = st.history.dropLast)
      ∨ ((∃ rw rh, op = CanvasOp.resize rw rh) ∧ ∃ e, (applyOp op st).history = [e])) := by
  have hshape : (applyOp op st).history = st.history
      ∨ (∃ e, (applyOp op st).history = st.history ++ [e])
      ∨ (op = CanvasOp.undoOp ∧ 2 ≤ st.history.length ∧ (applyOp op st).history = st.history.dropLast)
      ∨ ((∃ rw rh, op = CanvasOp.resize rw rh) ∧ ∃ e, (applyOp op st).history = [e]) := by
    cases op with
    | mouseDown raw ht => exact Or.inl (handleMouseDown_history st raw ht)
    | mouseMove raw => exact Or.inl (handleMouseMove_history st raw)
    | mouseUp raw =>
      rcases handleMouseUp_history st raw with hu | hu
      · exact Or.inl hu
      · exact Or.inr (Or.inl hu)
    | objectModified => exact Or.inr (Or.inl ⟨canvasToJSON st, rfl⟩)
    | textEditEnd tb =>
      rcases handleTextEditEnd_history st tb with hu | hu
      · exact Or.inl hu
      · exact Or.inr (Or.inl hu)
    | undoOp =>
      rcases undo_history st with hu | ⟨h2, hu⟩
      · exact Or.inl hu
      · exact Or.inr (Or.inr (Or.inl ⟨rfl, h2, hu⟩))
    | clearOp => exact Or.inr (Or.inl ⟨_, clearCanvas_history st⟩)
    | resize rw rh =>
      rcases resizeStep_history st rw rh with hu | hu
      · exact Or.inl hu
      · exact Or.inr (Or.inr (Or.inr ⟨⟨rw, rh, rfl⟩, hu⟩))
  have hne2 : (applyOp op st).history ≠ [] := by
    rcases hshape with hu | ⟨e, hu⟩ | ⟨-, h2, hu⟩ | ⟨-, e, hu⟩
    · rw [hu]; exact hne
    · rw [hu]; simp
    · refine List.length_pos.mp ?_
      rw [hu, List.length_dropLast]
      omega
    · rw [hu]; simp
  exact ⟨by simp [initCanvas], hne2, hshape⟩

/-- Witness for `C8_history_amended` at an `object:modified` save on
`resizeState`. -/
theorem C8_history_amended_witness :
    resizeState.history ≠ []
    ∧ (initCanvas none 100 100 "arrow" "#EF4444").history.length = 1
    ∧ (applyOp CanvasOp.objectModified resizeState).history ≠ [] := by
  have happ := C8_history_amended CanvasOp.objectModified resizeState (by simp [resizeState])
    none 100 100 "arrow" "#EF4444"
  exact ⟨by simp [resizeState], happ.1, happ.2.1⟩

/-- C8 counterexample: a resize of `resizeState` (two history entries,
nonempty scene) resets the history to one entry — an operation other than
undo shortens the stack, refuting strict append-only-except-undo. -/
theorem C8_counterexample :
    (applyOp (CanvasOp.resize 200 50) resizeState).history.length < resizeState.history.length
    ∧ CanvasOp.resize 200 50 ≠ CanvasOp.undoOp := by
  constructor
  · norm_num [applyOp, resizeStep, resizeState, canvasToJSON]
  · simp

/-! ### C9: debounced save coalescing -/

theorem debounceEmits_burst (wait : ℚ) (calls : List (ℚ × Scene)) (last : ℚ × Scene)
    (hlast : calls.getLast? = some last)
    (hburst : calls.Chain' (fun a b => b.1 < a.1 + wait)) :
    debounceEmits wait calls = [(last.1 + wait, last.2)] := by
  induction calls with
  | nil => simp at hlast
  | cons x rest ih =>
    obtain ⟨t, p⟩ := x
    cases rest with
    | nil =>
      simp only [List.getLast?_singleton, Option.some.injEq] at hlast
      rw [← hlast]
      rfl
    | cons y rest2 =>
      obtain ⟨t2, p2⟩ := y
      rw [List.getLast?_cons_cons] at hlast
      have hxy : t2 < t + wait := (List.chain'_cons.mp hburst).1
      have htail := (List.chain'_cons.mp hburst).2
      simp only [debounceEmits, if_pos hxy]
      exact ih hlast htail

/-- C9: a nonempty burst of edits all addressed to one page, with every
consecutive gap shorter than the 500-unit debounce window, produces exactly
one save for that page, carrying the payload of the last edit. -/
theorem C9_debounce_coalescing (edits : List (ℕ × ℚ × Scene)) (page : ℕ) (last : ℕ × ℚ × Scene)
    (hlast : edits.getLast? = some last)
    (hpage : ∀ e ∈ edits, e.1 = page)
    (hburst : edits.Chain' (fun a b => b.2.1 < a.2.1 + debounceWait)) :
    pageSaves edits page = [(last.2.1 + debounceWait, last.2.2)] := by
  have hfilter : edits.filter (fun e => e.1 = page) = edits := by
    rw [List.filter_eq_self]
    intro a ha
    exact decide_eq_true (hpage a ha)
  simp only [pageSaves, hfilter]
  apply debounceEmits_burst
  · rw [List.getLast?_map, hlast]
    rfl
  · rw [List.chain'_map]
    exact hburst

/-- Witness for `C9_debounce_coalescing`: five edits at times 0, 100, 200,
300, 400 on page 1 yield the single save (900, last payload). -/
theorem C9_debounce_coalescing_witness :
    burstEdits.getLast? = some (1, 400, scaledScene)
    ∧ pageSaves burstEdits 1 = [((400 : ℚ) + debounceWait, scaledScene)] := by
  have happ := C9_debounce_coalescing burstEdits 1 (1, 400, scaledScene) rfl
    (by decide) (by norm_num [burstEdits, List.chain'_cons, List.chain'_singleton, debounceWait])
  exact ⟨rfl, happ⟩

end RedInk
